import Mathlib

/-!
Formal model of the aftershock forecasting core of the repository
(`src/lib/calculations.ts`), together with proofs about its behaviour.

JavaScript numbers are modelled as exact real numbers.  Display-only string
formatting (`formatValue`, `formatPercentage`, the `"low-high"` range string,
and the numeric interpolation inside validation messages) is presentation and
is elided: the records below carry the underlying numeric values instead.
`Math.round` applied to the (already integral) Poisson-quantile outputs is the
identity and is likewise elided.  JS `Infinity` is modelled as `⊤ : ℕ∞`.
-/

/-- Structure `ModelParameters` of the source: Omori/Gutenberg-Richter parameter set. -/
structure ModelParameters where
  a : ℝ
  b : ℝ
  c : ℝ
  p : ℝ

/-- One entry of `PARAMETER_BOUNDS`: a literature bound with its description. -/
structure ParamBound where
  min : ℝ
  max : ℝ
  description : String

/-- The four entries of `PARAMETER_BOUNDS`. -/
structure ParamBoundsTable where
  a : ParamBound
  b : ParamBound
  c : ParamBound
  p : ParamBound

/-- Constant `PARAMETER_BOUNDS` of the source. -/
noncomputable def PARAMETER_BOUNDS : ParamBoundsTable where
  a := ⟨-4, 0, "Productivity parameter"⟩
  b := ⟨0.5, 1.5, "Gutenberg-Richter b-value"⟩
  c := ⟨0.001, 1.0, "Omori c-value (days)"⟩
  p := ⟨0.5, 2.0, "Omori p-value (decay rate)"⟩

/-- Function `validateModelParameters` of the source.  The source interpolates the
offending numeric value and the bound values into each message
(`Parameter 'a' (...) should be between -4 and 0`); number-to-string
conversion is display-only and elided here, the rest of each message is kept. -/
noncomputable def validateModelParameters (params : ModelParameters) : List String :=
  (if params.a < PARAMETER_BOUNDS.a.min ∨ params.a > PARAMETER_BOUNDS.a.max then
    ["Parameter 'a' should be between -4 and 0"] else []) ++
  (if params.b < PARAMETER_BOUNDS.b.min ∨ params.b > PARAMETER_BOUNDS.b.max then
    ["Parameter 'b' should be between 0.5 and 1.5"] else []) ++
  (if params.c < PARAMETER_BOUNDS.c.min ∨ params.c > PARAMETER_BOUNDS.c.max then
    ["Parameter 'c' should be between 0.001 and 1.0"] else []) ++
  (if params.p < PARAMETER_BOUNDS.p.min ∨ params.p > PARAMETER_BOUNDS.p.max then
    ["Parameter 'p' should be between 0.5 and 2.0"] else [])

/-- The `while (sum < p && count > 0)` loop of `qpois`, recursing on `count`:
`n = n + 1; inc = inc * lambda / n; sum = sum + inc; count = count - 1`. -/
noncomputable def qpoisLoop (lam p : ℝ) : ℕ → ℝ → ℝ → ℕ → ℕ
  | 0, _, _, n => n
  | Nat.succ count, inc, sum, n =>
    if sum < p then
      qpoisLoop lam p count (inc * lam / ((n : ℝ) + 1)) (sum + inc * lam / ((n : ℝ) + 1)) (n + 1)
    else n

/-- The `t` of the large-lambda branch of `qpois`:
`Math.sqrt(-2 * Math.log(p < 0.5 ? p : 1 - p))`. -/
noncomputable def qpoisT (p : ℝ) : ℝ :=
  Real.sqrt (-2 * Real.log (if p < 0.5 then p else 1 - p))

/-- The `z` of the large-lambda branch of `qpois`: the Abramowitz-Stegun
rational approximation to the standard normal inverse CDF at `t = qpoisT p`,
reflected (`z = -z`) when `p < 0.5`. -/
noncomputable def qpoisZ (p : ℝ) : ℝ :=
  if p < 0.5 then
    -(qpoisT p - (2.515517 + 0.802853 * qpoisT p + 0.010328 * qpoisT p * qpoisT p) /
      (1 + 1.432788 * qpoisT p + 0.189269 * qpoisT p * qpoisT p +
        0.001308 * qpoisT p * qpoisT p * qpoisT p))
  else
    qpoisT p - (2.515517 + 0.802853 * qpoisT p + 0.010328 * qpoisT p * qpoisT p) /
      (1 + 1.432788 * qpoisT p + 0.189269 * qpoisT p * qpoisT p +
        0.001308 * qpoisT p * qpoisT p * qpoisT p)

/-- Function `qpois` of the source: quantile function of the Poisson distribution.
For `lambda > 100` it uses the normal approximation
`max(0, round(lambda + z * sqrt(lambda)))`; otherwise it sums the PMF
incrementally starting from `inc = sum = exp(-1 * lambda)`, `n = 0`,
`count = 1000`. -/
noncomputable def qpois (p lam : ℝ) : ℕ∞ :=
  if lam ≤ 0 then 0
  else if p ≤ 0 then 0
  else if 1 ≤ p then ⊤
  else if 100 < lam then
    (((max 0 (round (lam + qpoisZ p * Real.sqrt lam))).toNat : ℕ) : ℕ∞)
  else
    ((qpoisLoop lam p 1000 (Real.exp (-1 * lam)) (Real.exp (-1 * lam)) 0 : ℕ) : ℕ∞)

/-- Function `calculateOmoriIntegral` of the source: integral of `(t + c)^(-p)` from
`rangeStart` to `rangeEnd`, with the logarithmic special case when
`|p - 1| < 1e-10`. -/
noncomputable def calculateOmoriIntegral (rangeStart rangeEnd c p : ℝ) : ℝ :=
  if |p - 1| < 1e-10 then
    Real.log (rangeEnd + c) - Real.log (rangeStart + c)
  else
    ((rangeEnd + c) ^ (1 - p) - (rangeStart + c) ^ (1 - p)) / (1 - p)

/-- Function `calculateExpectedAftershocks` of the source. -/
noncomputable def calculateExpectedAftershocks (a b mainMag minMag omoriIntegral : ℝ) : ℝ :=
  (10 : ℝ) ^ (a + b * (mainMag - (minMag - 0.05))) * omoriIntegral

/-- One band of a `DurationForecast` (numeric content of the source's
per-band record; see the module docstring for the elided formatting). -/
structure ForecastResult where
  averageNumber : ℝ
  lowerBound : ℕ∞
  upperBound : ℕ∞
  probability : ℝ

/-- Structure `DurationForecast` of the source: the three bands for one duration. -/
structure DurationForecast where
  duration : ℝ
  m1 : ForecastResult
  m2 : ForecastResult
  m3 : ForecastResult

/-- Function `calculateDurationForecast` of the source.  The thrown `Error`s are
modelled as `Except.error` with the source's message. -/
noncomputable def calculateDurationForecast (duration mag m1 m2 m3 rangeStartFromQuakeTime : ℝ)
    (params : ModelParameters) : Except String DurationForecast :=
  if duration ≤ 0 then Except.error ("Duration must be positive")
  else if rangeStartFromQuakeTime < 0 then
    Except.error ("Forecast cannot start before the earthquake occurred")
  else
    let rangeEnd := rangeStartFromQuakeTime + duration
    let omoriIntegral := calculateOmoriIntegral rangeStartFromQuakeTime rangeEnd params.c params.p
    let vNabu1 := calculateExpectedAftershocks params.a params.b mag m1 omoriIntegral
    let vNabu2 := calculateExpectedAftershocks params.a params.b mag m2 omoriIntegral
    let vNabu3 := calculateExpectedAftershocks params.a params.b mag m3 omoriIntegral
    let diff1 := vNabu1
    let diff2 := vNabu2 - vNabu1
    let diff3 := vNabu3 - vNabu2
    Except.ok
      { duration := duration
        m1 := { averageNumber := diff1, lowerBound := qpois 0.025 diff1,
                upperBound := qpois 0.975 diff1,
                probability := 100 * (1 - Real.exp (-diff1)) }
        m2 := { averageNumber := diff2, lowerBound := qpois 0.025 diff2,
                upperBound := qpois 0.975 diff2,
                probability := 100 * (1 - Real.exp (-diff2)) }
        m3 := { averageNumber := diff3, lowerBound := qpois 0.025 diff3,
                upperBound := qpois 0.975 diff3,
                probability := 100 * (1 - Real.exp (-diff3)) } }

/-- Result record of `calculateInitialMagnitudeRanges`. -/
structure MagnitudeRanges where
  m1 : ℤ
  m2 : ℤ
  m3 : ℤ

/-- Function `calculateInitialMagnitudeRanges` of the source (JS `Math.round` rounds
half-up, matching Mathlib's `round`). -/
noncomputable def calculateInitialMagnitudeRanges (magnitude : ℝ) : MagnitudeRanges :=
  let m1 : ℤ := max 1 (min 9 (round (magnitude - 0.5)))
  let m2 : ℤ := max 1 (m1 - 1)
  let m3 : ℤ := max 1 (m1 - 2)
  ⟨m1, m2, m3⟩

/-- Term `k` of the Poisson(`lam`) PMF, `e^(-lam) lam^k / k!`; this is the
exact value of the loop variable `inc` of `qpois` after `k` iterations. -/
noncomputable def poissonTerm (lam : ℝ) (k : ℕ) : ℝ :=
  Real.exp (-lam) * lam ^ k / (Nat.factorial k : ℝ)

/-- Poisson(`lam`) CDF at `n`: sum of the PMF over `0..n`; this is the exact
value of the loop variable `sum` of `qpois` after `n` iterations. -/
noncomputable def poissonCDF (lam : ℝ) (n : ℕ) : ℝ :=
  ∑ k ∈ Finset.range (n + 1), poissonTerm lam k

/-! ### Generic small helpers -/

theorem round_le_round_of_le {x y : ℝ} (h : x ≤ y) : round x ≤ round y := by
  rw [round_eq, round_eq]; exact Int.floor_le_floor (by linarith)

/-- Field content of a successful `calculateDurationForecast` call. -/
theorem durationForecast_fields (duration mag m1 m2 m3 rs : ℝ) (params : ModelParameters)
    (hd : 0 < duration) (hrs : 0 ≤ rs) :
    ∃ F, calculateDurationForecast duration mag m1 m2 m3 rs params = Except.ok F ∧
      F.duration = duration ∧
      F.m1.averageNumber = calculateExpectedAftershocks params.a params.b mag m1
        (calculateOmoriIntegral rs (rs + duration) params.c params.p) ∧
      F.m2.averageNumber = calculateExpectedAftershocks params.a params.b mag m2
          (calculateOmoriIntegral rs (rs + duration) params.c params.p) -
        calculateExpectedAftershocks params.a params.b mag m1
          (calculateOmoriIntegral rs (rs + duration) params.c params.p) ∧
      F.m3.averageNumber = calculateExpectedAftershocks params.a params.b mag m3
          (calculateOmoriIntegral rs (rs + duration) params.c params.p) -
        calculateExpectedAftershocks params.a params.b mag m2
          (calculateOmoriIntegral rs (rs + duration) params.c params.p) ∧
      F.m1.probability = 100 * (1 - Real.exp (-F.m1.averageNumber)) ∧
      F.m2.probability = 100 * (1 - Real.exp (-F.m2.averageNumber)) ∧
      F.m3.probability = 100 * (1 - Real.exp (-F.m3.averageNumber)) ∧
      F.m1.lowerBound = qpois 0.025 F.m1.averageNumber ∧
      F.m1.upperBound = qpois 0.975 F.m1.averageNumber ∧
      F.m2.lowerBound = qpois 0.025 F.m2.averageNumber ∧
      F.m2.upperBound = qpois 0.975 F.m2.averageNumber ∧
      F.m3.lowerBound = qpois 0.025 F.m3.averageNumber ∧
      F.m3.upperBound = qpois 0.975 F.m3.averageNumber := by
  rw [calculateDurationForecast, if_neg (not_le.2 hd), if_neg (not_lt.2 hrs)]
  exact ⟨_, rfl, rfl, rfl, rfl, rfl, rfl, rfl, rfl, rfl, rfl, rfl, rfl, rfl, rfl⟩

/-! ### Claim C2 -/

/-- C2: `calculateOmoriIntegral` returns the closed power form when
`|p - 1| ≥ 1e-10` and the logarithmic form when `|p - 1| < 1e-10`; it is a
total function (never throws). -/
theorem C2_calculateOmoriIntegral_cases (rangeStart rangeEnd c p : ℝ) :
    (1e-10 ≤ |p - 1| → calculateOmoriIntegral rangeStart rangeEnd c p =
      ((rangeEnd + c) ^ (1 - p) - (rangeStart + c) ^ (1 - p)) / (1 - p)) ∧
    (|p - 1| < 1e-10 → calculateOmoriIntegral rangeStart rangeEnd c p =
      Real.log (rangeEnd + c) - Real.log (rangeStart + c)) := by
  constructor
  · intro h; rw [calculateOmoriIntegral, if_neg (not_lt.2 h)]
  · intro h; rw [calculateOmoriIntegral, if_pos h]

/-- Witness for C2 at `rangeStart = 0`, `rangeEnd = 1`, `c = 1`, `p = 2`. -/
theorem C2_calculateOmoriIntegral_cases_witness :
    (1e-10 : ℝ) ≤ |(2 : ℝ) - 1| ∧
    calculateOmoriIntegral 0 1 1 2 =
      ((1 + 1 : ℝ) ^ (1 - 2 : ℝ) - (0 + 1 : ℝ) ^ (1 - 2 : ℝ)) / (1 - 2) :=
  ⟨by norm_num, (C2_calculateOmoriIntegral_cases 0 1 1 2).1 (by norm_num)⟩

/-! ### Claim C3 -/

/-- C3: `calculateExpectedAftershocks` computes
`10^(a + b(mainMag - (minMag - 0.05))) * integral`, and the result is
nonnegative whenever the integral is. -/
theorem C3_calculateExpectedAftershocks_formula (a b mainMag minMag integral : ℝ) :
    calculateExpectedAftershocks a b mainMag minMag integral =
      (10 : ℝ) ^ (a + b * (mainMag - (minMag - 0.05))) * integral ∧
    (0 ≤ integral → 0 ≤ calculateExpectedAftershocks a b mainMag minMag integral) := by
  refine ⟨rfl, fun h => ?_⟩
  exact mul_nonneg (Real.rpow_pos_of_pos (by norm_num) _).le h

/-- Witness for C3 at `a = -2`, `b = 1`, `mainMag = 7`, `minMag = 5`,
`integral = 3`. -/
theorem C3_calculateExpectedAftershocks_formula_witness :
    (0 : ℝ) ≤ 3 ∧ 0 ≤ calculateExpectedAftershocks (-2) 1 7 5 3 :=
  ⟨by norm_num, (C3_calculateExpectedAftershocks_formula (-2) 1 7 5 3).2 (by norm_num)⟩

/-! ### Claim C7 -/

/-- C7 counterexample: with `a = 0`, `b = 1`, `mainMag = 0` and a negative
integral `-1`, raising the threshold from `0` to `1` strictly increases the
result; the same happens with a negative slope `b = -1` and positive integral
`1`.  The unconditional monotonicity claim therefore fails. -/
theorem C7_monotone_counterexample :
    (0 : ℝ) ≤ 1 ∧
    calculateExpectedAftershocks 0 1 0 0 (-1) < calculateExpectedAftershocks 0 1 0 1 (-1) ∧
    calculateExpectedAftershocks 0 (-1) 0 0 1 < calculateExpectedAftershocks 0 (-1) 0 1 1 := by
  refine ⟨by norm_num, ?_, ?_⟩
  · unfold calculateExpectedAftershocks
    have h : (10 : ℝ) ^ ((0 : ℝ) + 1 * (0 - (1 - 0.05))) <
        (10 : ℝ) ^ ((0 : ℝ) + 1 * (0 - (0 - 0.05))) :=
      Real.rpow_lt_rpow_of_exponent_lt (by norm_num) (by norm_num)
    nlinarith [h]
  · unfold calculateExpectedAftershocks
    have h : (10 : ℝ) ^ ((0 : ℝ) + -1 * (0 - (0 - 0.05))) <
        (10 : ℝ) ^ ((0 : ℝ) + -1 * (0 - (1 - 0.05))) :=
      Real.rpow_lt_rpow_of_exponent_lt (by norm_num) (by norm_num)
    nlinarith [h]

/-- Antitonicity of the expected-count model in the magnitude threshold,
for `b ≥ 0` and a nonnegative integral. -/
theorem calculateExpectedAftershocks_anti (a b mainMag minMag minMag' integral : ℝ)
    (hb : 0 ≤ b) (hI : 0 ≤ integral) (h : minMag ≤ minMag') :
    calculateExpectedAftershocks a b mainMag minMag' integral ≤
      calculateExpectedAftershocks a b mainMag minMag integral := by
  unfold calculateExpectedAftershocks
  have hexp : a + b * (mainMag - (minMag' - 0.05)) ≤ a + b * (mainMag - (minMag - 0.05)) := by
    nlinarith
  exact mul_le_mul_of_nonneg_right (Real.rpow_le_rpow_of_exponent_le (by norm_num) hexp) hI

/-- C7 (amended): for `b ≥ 0` and a nonnegative integral,
`calculateExpectedAftershocks` is monotonically non-increasing in
`minMagnitude`. -/
theorem C7_monotone_in_minMagnitude (a b mainMag minMag minMag' integral : ℝ)
    (hb : 0 ≤ b) (hI : 0 ≤ integral) (h : minMag ≤ minMag') :
    calculateExpectedAftershocks a b mainMag minMag' integral ≤
      calculateExpectedAftershocks a b mainMag minMag integral :=
  calculateExpectedAftershocks_anti a b mainMag minMag minMag' integral hb hI h

/-- Witness for the amended C7 at `a = 0`, `b = 1`, `mainMag = 5`,
thresholds `3 ≤ 4`, `integral = 2`. -/
theorem C7_monotone_in_minMagnitude_witness :
    (0 : ℝ) ≤ 1 ∧ (0 : ℝ) ≤ 2 ∧ (3 : ℝ) ≤ 4 ∧
    calculateExpectedAftershocks 0 1 5 4 2 ≤ calculateExpectedAftershocks 0 1 5 3 2 :=
  ⟨by norm_num, by norm_num, by norm_num,
    C7_monotone_in_minMagnitude 0 1 5 3 4 2 (by norm_num) (by norm_num) (by norm_num)⟩

/-! ### Claim C9 -/

/-- C9: `validateModelParameters` emits exactly one descriptive warning per
parameter outside its inclusive literature bound (`a ∈ [-4,0]`,
`b ∈ [0.5,1.5]`, `c ∈ [0.001,1.0]`, `p ∈ [0.5,2.0]`) and no others; it is
empty on the in-bounds example, returns a warning naming `a` for `a = -5`,
and is a total function (never throws, never blocks). -/
theorem C9_validateModelParameters_warnings :
    (∀ params : ModelParameters,
      validateModelParameters params =
        (if params.a < -4 ∨ params.a > 0 then
          ["Parameter 'a' should be between -4 and 0"] else []) ++
        (if params.b < 0.5 ∨ params.b > 1.5 then
          ["Parameter 'b' should be between 0.5 and 1.5"] else []) ++
        (if params.c < 0.001 ∨ params.c > 1.0 then
          ["Parameter 'c' should be between 0.001 and 1.0"] else []) ++
        (if params.p < 0.5 ∨ params.p > 2.0 then
          ["Parameter 'p' should be between 0.5 and 2.0"] else [])) ∧
    validateModelParameters ⟨-1.59, 1.03, 0.04, 1.07⟩ = [] ∧
    validateModelParameters ⟨-5, 1.03, 0.04, 1.07⟩ =
      ["Parameter 'a' should be between -4 and 0"] ∧
    'a' ∈ ("Parameter 'a' should be between -4 and 0").data ∧
    'b' ∈ ("Parameter 'b' should be between 0.5 and 1.5").data ∧
    'c' ∈ ("Parameter 'c' should be between 0.001 and 1.0").data ∧
    'p' ∈ ("Parameter 'p' should be between 0.5 and 2.0").data := by
  refine ⟨fun params => rfl, ?_, ?_, by decide, by decide, by decide, by decide⟩
  · rw [validateModelParameters]
    norm_num [PARAMETER_BOUNDS]
  · rw [validateModelParameters]
    norm_num [PARAMETER_BOUNDS]

/-! ### Claim C10 -/

/-- C10: for every magnitude, `calculateInitialMagnitudeRanges` returns
thresholds with `1 ≤ m3 ≤ m2 ≤ m1 ≤ 9`, `m1 - m2 ≤ 1` and `m2 - m3 ≤ 1`; and
for every magnitude at most `2.5` the two lower thresholds coincide, so the
result is not strictly decreasing there. -/
theorem C10_calculateInitialMagnitudeRanges_spec (magnitude : ℝ) :
    (1 ≤ (calculateInitialMagnitudeRanges magnitude).m3 ∧
      (calculateInitialMagnitudeRanges magnitude).m3 ≤ (calculateInitialMagnitudeRanges magnitude).m2 ∧
      (calculateInitialMagnitudeRanges magnitude).m2 ≤ (calculateInitialMagnitudeRanges magnitude).m1 ∧
      (calculateInitialMagnitudeRanges magnitude).m1 ≤ 9 ∧
      (calculateInitialMagnitudeRanges magnitude).m1 - (calculateInitialMagnitudeRanges magnitude).m2 ≤ 1 ∧
      (calculateInitialMagnitudeRanges magnitude).m2 - (calculateInitialMagnitudeRanges magnitude).m3 ≤ 1) ∧
    (magnitude ≤ 5/2 →
      (calculateInitialMagnitudeRanges magnitude).m2 = (calculateInitialMagnitudeRanges magnitude).m3) := by
  unfold calculateInitialMagnitudeRanges
  dsimp only
  set k : ℤ := round (magnitude - 0.5) with hk
  have A1 : (1 : ℤ) ≤ max 1 (min 9 k) := le_max_left _ _
  have A2 : max 1 (min 9 k) ≤ 9 := max_le (by norm_num) (min_le_left _ _)
  have B1 : (1 : ℤ) ≤ max 1 (max 1 (min 9 k) - 1) := le_max_left _ _
  have B2 : max 1 (min 9 k) - 1 ≤ max 1 (max 1 (min 9 k) - 1) := le_max_right _ _
  have B3 := max_choice (1 : ℤ) (max 1 (min 9 k) - 1)
  have D1 : (1 : ℤ) ≤ max 1 (max 1 (min 9 k) - 2) := le_max_left _ _
  have D2 : max 1 (min 9 k) - 2 ≤ max 1 (max 1 (min 9 k) - 2) := le_max_right _ _
  have D3 := max_choice (1 : ℤ) (max 1 (min 9 k) - 2)
  refine ⟨⟨D1, ?_, ?_, A2, ?_, ?_⟩, fun hmag => ?_⟩
  · omega
  · omega
  · omega
  · omega
  · have hk2 : k ≤ 2 := by
      have h1 : round (magnitude - 0.5) ≤ round (2 : ℝ) := round_le_round_of_le (by linarith)
      have h2 : round (2 : ℝ) = 2 := by
        rw [round_eq, show (2 : ℝ) + 1/2 = 5/2 by norm_num]
        exact Int.floor_eq_iff.2 ⟨by norm_num, by norm_num⟩
      omega
    have hA : max 1 (min 9 k) ≤ 2 := max_le (by norm_num) (le_trans (min_le_right _ _) hk2)
    omega

/-- Witness for C10 at `magnitude = 2`. -/
theorem C10_calculateInitialMagnitudeRanges_spec_witness :
    (2 : ℝ) ≤ 5/2 ∧
    (calculateInitialMagnitudeRanges 2).m2 = (calculateInitialMagnitudeRanges 2).m3 :=
  ⟨by norm_num, (C10_calculateInitialMagnitudeRanges_spec 2).2 (by norm_num)⟩

/-! ### Claim C5 -/

/-- C5: `calculateDurationForecast` fails exactly when `duration ≤ 0` or
`rangeStartFromQuakeTime < 0`; in particular, for any magnitude thresholds
(ordered or not) it succeeds as soon as `duration > 0` and the start offset is
nonnegative — threshold ordering is not validated. -/
theorem C5_calculateDurationForecast_error_iff (duration mag m1 m2 m3 rs : ℝ)
    (params : ModelParameters) :
    ((duration ≤ 0 ∨ rs < 0) →
      ∃ e, calculateDurationForecast duration mag m1 m2 m3 rs params = Except.error e) ∧
    (0 < duration → 0 ≤ rs →
      ∃ F, calculateDurationForecast duration mag m1 m2 m3 rs params = Except.ok F) := by
  constructor
  · intro h
    rw [calculateDurationForecast]
    rcases h with h | h
    · rw [if_pos h]; exact ⟨_, rfl⟩
    · by_cases hd : duration ≤ 0
      · rw [if_pos hd]; exact ⟨_, rfl⟩
      · rw [if_neg hd, if_pos h]; exact ⟨_, rfl⟩
  · intro h1 h2
    rw [calculateDurationForecast, if_neg (not_le.2 h1), if_neg (not_lt.2 h2)]
    exact ⟨_, rfl⟩

/-- Witness for C5: failure at `duration = 0` and success at `duration = 1`,
`rs = 0` with non-decreasing thresholds `3, 4, 5`. -/
theorem C5_calculateDurationForecast_error_iff_witness :
    ((0 : ℝ) ≤ 0 ∨ (0 : ℝ) < 0) ∧
    (∃ e, calculateDurationForecast 0 7 5 4 3 0 ⟨-2, 1, 0.05, 1.1⟩ = Except.error e) ∧
    (∃ F, calculateDurationForecast 1 7 3 4 5 0 ⟨-2, 1, 0.05, 1.1⟩ = Except.ok F) :=
  ⟨Or.inl le_rfl,
    (C5_calculateDurationForecast_error_iff 0 7 5 4 3 0 ⟨-2, 1, 0.05, 1.1⟩).1 (Or.inl le_rfl),
    (C5_calculateDurationForecast_error_iff 1 7 3 4 5 0 ⟨-2, 1, 0.05, 1.1⟩).2 (by norm_num)
      (by norm_num)⟩

/-! ### Claim C1 -/

/-- C1: a successful `calculateDurationForecast` call evaluates the Omori
integral on `[rangeStart, rangeStart + duration]`, obtains the cumulative
counts `N(m1), N(m2), N(m3)` from `calculateExpectedAftershocks` on that one
integral, and produces per band the expected counts `N(m1)`,
`N(m2) - N(m1)`, `N(m3) - N(m2)`, the probability `100(1 - e^(-band))`, and
the Poisson bounds `qpois(0.025, band)` and `qpois(0.975, band)`. -/
theorem C1_calculateDurationForecast_assembly (duration mag m1 m2 m3 rs : ℝ)
    (params : ModelParameters) (hd : 0 < duration) (hrs : 0 ≤ rs) :
    ∃ F, calculateDurationForecast duration mag m1 m2 m3 rs params = Except.ok F ∧
      F.duration = duration ∧
      F.m1.averageNumber = calculateExpectedAftershocks params.a params.b mag m1
        (calculateOmoriIntegral rs (rs + duration) params.c params.p) ∧
      F.m2.averageNumber = calculateExpectedAftershocks params.a params.b mag m2
          (calculateOmoriIntegral rs (rs + duration) params.c params.p) -
        calculateExpectedAftershocks params.a params.b mag m1
          (calculateOmoriIntegral rs (rs + duration) params.c params.p) ∧
      F.m3.averageNumber = calculateExpectedAftershocks params.a params.b mag m3
          (calculateOmoriIntegral rs (rs + duration) params.c params.p) -
        calculateExpectedAftershocks params.a params.b mag m2
          (calculateOmoriIntegral rs (rs + duration) params.c params.p) ∧
      F.m1.probability = 100 * (1 - Real.exp (-F.m1.averageNumber)) ∧
      F.m2.probability = 100 * (1 - Real.exp (-F.m2.averageNumber)) ∧
      F.m3.probability = 100 * (1 - Real.exp (-F.m3.averageNumber)) ∧
      F.m1.lowerBound = qpois 0.025 F.m1.averageNumber ∧
      F.m1.upperBound = qpois 0.975 F.m1.averageNumber ∧
      F.m2.lowerBound = qpois 0.025 F.m2.averageNumber ∧
      F.m2.upperBound = qpois 0.975 F.m2.averageNumber ∧
      F.m3.lowerBound = qpois 0.025 F.m3.averageNumber ∧
      F.m3.upperBound = qpois 0.975 F.m3.averageNumber :=
  durationForecast_fields duration mag m1 m2 m3 rs params hd hrs

/-- Witness for C1 at `duration = 1`, `mag = 7.8`, thresholds `5, 4, 3`,
`rs = 0`, Reasenberg-Jones-style parameters. -/
theorem C1_calculateDurationForecast_assembly_witness :
    (0 : ℝ) < 1 ∧ (0 : ℝ) ≤ 0 ∧
    ∃ F, calculateDurationForecast 1 7.8 5 4 3 0 ⟨-1.59, 1.03, 0.04, 1.07⟩ = Except.ok F ∧
      F.duration = 1 ∧
      F.m1.averageNumber = calculateExpectedAftershocks (-1.59) 1.03 7.8 5
        (calculateOmoriIntegral 0 (0 + 1) 0.04 1.07) ∧
      F.m2.averageNumber = calculateExpectedAftershocks (-1.59) 1.03 7.8 4
          (calculateOmoriIntegral 0 (0 + 1) 0.04 1.07) -
        calculateExpectedAftershocks (-1.59) 1.03 7.8 5
          (calculateOmoriIntegral 0 (0 + 1) 0.04 1.07) ∧
      F.m3.averageNumber = calculateExpectedAftershocks (-1.59) 1.03 7.8 3
          (calculateOmoriIntegral 0 (0 + 1) 0.04 1.07) -
        calculateExpectedAftershocks (-1.59) 1.03 7.8 4
          (calculateOmoriIntegral 0 (0 + 1) 0.04 1.07) ∧
      F.m1.probability = 100 * (1 - Real.exp (-F.m1.averageNumber)) ∧
      F.m2.probability = 100 * (1 - Real.exp (-F.m2.averageNumber)) ∧
      F.m3.probability = 100 * (1 - Real.exp (-F.m3.averageNumber)) ∧
      F.m1.lowerBound = qpois 0.025 F.m1.averageNumber ∧
      F.m1.upperBound = qpois 0.975 F.m1.averageNumber ∧
      F.m2.lowerBound = qpois 0.025 F.m2.averageNumber ∧
      F.m2.upperBound = qpois 0.975 F.m2.averageNumber ∧
      F.m3.lowerBound = qpois 0.025 F.m3.averageNumber ∧
      F.m3.upperBound = qpois 0.975 F.m3.averageNumber :=
  ⟨by norm_num, le_rfl,
    C1_calculateDurationForecast_assembly 1 7.8 5 4 3 0 ⟨-1.59, 1.03, 0.04, 1.07⟩
      (by norm_num) le_rfl⟩

/-! ### Poisson PMF / CDF facts and the `qpois` loop invariant -/

theorem poissonTerm_zero (lam : ℝ) : poissonTerm lam 0 = Real.exp (-lam) := by
  simp [poissonTerm]

theorem poissonCDF_zero (lam : ℝ) : poissonCDF lam 0 = Real.exp (-lam) := by
  simp [poissonCDF, poissonTerm]

theorem poissonTerm_succ (lam : ℝ) (n : ℕ) :
    poissonTerm lam (n + 1) = poissonTerm lam n * lam / ((n : ℝ) + 1) := by
  unfold poissonTerm
  rw [Nat.factorial_succ, pow_succ]
  have h1 : (Nat.factorial n : ℝ) ≠ 0 := Nat.cast_ne_zero.2 (Nat.factorial_ne_zero n)
  have h2 : ((n : ℝ) + 1) ≠ 0 := by positivity
  push_cast
  field_simp
  ring

theorem poissonCDF_succ (lam : ℝ) (n : ℕ) :
    poissonCDF lam (n + 1) = poissonCDF lam n + poissonTerm lam (n + 1) := by
  rw [poissonCDF, poissonCDF, Finset.sum_range_succ]

theorem poissonTerm_nonneg {lam : ℝ} (hlam : 0 ≤ lam) (k : ℕ) : 0 ≤ poissonTerm lam k := by
  unfold poissonTerm
  positivity

theorem poissonCDF_mono_idx {lam : ℝ} (hlam : 0 ≤ lam) {n m : ℕ} (h : n ≤ m) :
    poissonCDF lam n ≤ poissonCDF lam m :=
  Finset.sum_le_sum_of_subset_of_nonneg (Finset.range_subset.2 (by omega))
    (fun i _ _ => poissonTerm_nonneg hlam i)

/-- Invariant of the `qpois` summation loop: started at index `n` with the
exact PMF term and CDF value, the result `r` satisfies `n ≤ r ≤ n + count`,
either the CDF at `r` has reached `p` or the iteration budget is exhausted
(`r = n + count`), and the CDF is below `p` strictly before `r`. -/
theorem qpoisLoop_spec (lam p : ℝ) :
    ∀ count n : ℕ, (∀ k < n, poissonCDF lam k < p) →
      n ≤ qpoisLoop lam p count (poissonTerm lam n) (poissonCDF lam n) n ∧
      qpoisLoop lam p count (poissonTerm lam n) (poissonCDF lam n) n ≤ n + count ∧
      (p ≤ poissonCDF lam (qpoisLoop lam p count (poissonTerm lam n) (poissonCDF lam n) n) ∨
        qpoisLoop lam p count (poissonTerm lam n) (poissonCDF lam n) n = n + count) ∧
      (∀ k < qpoisLoop lam p count (poissonTerm lam n) (poissonCDF lam n) n,
        poissonCDF lam k < p) := by
  intro count
  induction count with
  | zero =>
    intro n hb
    simp only [qpoisLoop]
    exact ⟨le_rfl, by omega, Or.inr (by omega), hb⟩
  | succ m ih =>
    intro n hb
    simp only [qpoisLoop]
    by_cases h : poissonCDF lam n < p
    · rw [if_pos h]
      have harg : poissonTerm lam n * lam / ((n : ℝ) + 1) = poissonTerm lam (n + 1) :=
        (poissonTerm_succ lam n).symm
      rw [harg, ← poissonCDF_succ]
      have hb' : ∀ k < n + 1, poissonCDF lam k < p := by
        intro k hk
        rcases Nat.lt_succ_iff_lt_or_eq.1 hk with h' | h'
        · exact hb k h'
        · subst h'; exact h
      obtain ⟨g1, g2, g3, g4⟩ := ih (n + 1) hb'
      refine ⟨by omega, by omega, ?_, g4⟩
      rcases g3 with g | g
      · exact Or.inl g
      · exact Or.inr (by omega)
    · rw [if_neg h]
      exact ⟨le_rfl, by omega, Or.inl (not_lt.1 h), hb⟩

/-- In the summation regime (`0 < lam ≤ 100`, `0 < p < 1`), `qpois` is the
loop started from `n = 0` with `inc = sum = e^(-lam)` and `count = 1000`. -/
theorem qpois_eq_loop {p lam : ℝ} (hlam : 0 < lam) (h100 : lam ≤ 100) (hp0 : 0 < p)
    (hp1 : p < 1) :
    qpois p lam =
      ((qpoisLoop lam p 1000 (poissonTerm lam 0) (poissonCDF lam 0) 0 : ℕ) : ℕ∞) := by
  rw [qpois, if_neg (not_le.2 hlam), if_neg (not_le.2 hp0), if_neg (not_le.2 hp1),
    if_neg (not_lt.2 h100)]
  rw [show Real.exp (-1 * lam) = poissonCDF lam 0 by rw [poissonCDF_zero, neg_one_mul]]
  nth_rewrite 1 [show poissonCDF lam 0 = poissonTerm lam 0 by
    rw [poissonCDF_zero, poissonTerm_zero]]
  rfl

/-- Summary of the summation regime: the value of `qpois` is a natural
number `r ≤ 1000` at which either the CDF has reached `p` or the cap was
hit, and before which the CDF is strictly below `p`. -/
theorem qpois_summation_spec {p lam : ℝ} (hlam : 0 < lam) (h100 : lam ≤ 100) (hp0 : 0 < p)
    (hp1 : p < 1) :
    ∃ r : ℕ, qpois p lam = (r : ℕ∞) ∧ r ≤ 1000 ∧
      (p ≤ poissonCDF lam r ∨ r = 1000) ∧ (∀ k < r, poissonCDF lam k < p) := by
  obtain ⟨g1, g2, g3, g4⟩ := qpoisLoop_spec lam p 1000 0 (by omega)
  refine ⟨_, qpois_eq_loop hlam h100 hp0 hp1, by omega, ?_, g4⟩
  rcases g3 with g | g
  · exact Or.inl g
  · exact Or.inr (by omega)

/-! ### Poisson CDF upper bounds via the exponential series -/

theorem poissonCDF_eq_exp_mul (lam : ℝ) (n : ℕ) :
    poissonCDF lam n =
      Real.exp (-lam) * ∑ k ∈ Finset.range (n + 1), lam ^ k / (Nat.factorial k : ℝ) := by
  rw [poissonCDF, Finset.mul_sum]
  exact Finset.sum_congr rfl fun k _ => by rw [poissonTerm, mul_div_assoc]

theorem poissonCDF_le_one {lam : ℝ} (hlam : 0 ≤ lam) (n : ℕ) : poissonCDF lam n ≤ 1 := by
  rw [poissonCDF_eq_exp_mul]
  calc Real.exp (-lam) * ∑ k ∈ Finset.range (n + 1), lam ^ k / (Nat.factorial k : ℝ) ≤
      Real.exp (-lam) * Real.exp lam :=
        mul_le_mul_of_nonneg_left (Real.sum_le_exp_of_nonneg hlam _) (Real.exp_pos _).le
    _ = 1 := by rw [← Real.exp_add]; norm_num

theorem poissonCDF_lt_one_sub {lam eps : ℝ} (hlam : 0 ≤ lam) (n : ℕ)
    (h : eps < poissonTerm lam (n + 1)) : poissonCDF lam n < 1 - eps := by
  have h1 : poissonCDF lam n + poissonTerm lam (n + 1) ≤ 1 := by
    rw [← poissonCDF_succ]; exact poissonCDF_le_one hlam _
  linarith

set_option maxRecDepth 40000 in
/-- Bound `e^(-100) * 100^1001 / 1001! > e^(-3000)`: the PMF term at 1001 still
dominates the tail target used to exhibit the 1000-iteration cap. -/
theorem poissonTerm_100_1001_gt : Real.exp (-3000) < poissonTerm 100 1001 := by
  have hNat : ((Nat.factorial 1001 : ℕ) : ℝ) * 10 ^ 898 < 27 ^ 2900 := by
    exact_mod_cast (by decide : Nat.factorial 1001 * 10 ^ 898 < 27 ^ 2900)
  have h27 : (27 : ℝ) ^ 2900 = (2.7 : ℝ) ^ 2900 * 10 ^ 2900 := by
    rw [← mul_pow]; norm_num
  have hexp27 : (2.7 : ℝ) ^ 2900 ≤ Real.exp 2900 := by
    calc (2.7 : ℝ) ^ 2900 ≤ Real.exp 1 ^ 2900 :=
          pow_le_pow_left₀ (by norm_num) (by nlinarith [Real.exp_one_gt_d9]) 2900
      _ = Real.exp 2900 := by rw [Real.exp_one_pow]; norm_num
  have hsplit : (10 : ℝ) ^ 2900 = 10 ^ 2002 * 10 ^ 898 := by rw [← pow_add]
  have hkey : ((Nat.factorial 1001 : ℕ) : ℝ) < Real.exp 2900 * 10 ^ 2002 := by
    have hT : (0 : ℝ) < 10 ^ 898 := by positivity
    have h1 : ((Nat.factorial 1001 : ℕ) : ℝ) * 10 ^ 898 <
        Real.exp 2900 * 10 ^ 2002 * 10 ^ 898 := by
      calc ((Nat.factorial 1001 : ℕ) : ℝ) * 10 ^ 898 < 27 ^ 2900 := hNat
        _ = (2.7 : ℝ) ^ 2900 * (10 ^ 2002 * 10 ^ 898) := by rw [h27, hsplit]
        _ ≤ Real.exp 2900 * (10 ^ 2002 * 10 ^ 898) :=
          mul_le_mul_of_nonneg_right hexp27 (by positivity)
        _ = Real.exp 2900 * 10 ^ 2002 * 10 ^ 898 := by ring
    exact lt_of_mul_lt_mul_right h1 hT.le
  have hpow : (100 : ℝ) ^ 1001 = 10 ^ 2002 := by
    rw [show (100 : ℝ) = 10 ^ 2 by norm_num, ← pow_mul]
  have hfac : (0 : ℝ) < ((Nat.factorial 1001 : ℕ) : ℝ) := by
    exact_mod_cast Nat.factorial_pos 1001
  have hmain : Real.exp (-2900) < (100 : ℝ) ^ 1001 / ((Nat.factorial 1001 : ℕ) : ℝ) := by
    rw [lt_div_iff₀ hfac]
    have h0 : Real.exp (-2900) * Real.exp 2900 = 1 := by rw [← Real.exp_add]; norm_num
    have h2 := mul_lt_mul_of_pos_left hkey (Real.exp_pos (-2900))
    calc Real.exp (-2900) * ((Nat.factorial 1001 : ℕ) : ℝ) <
        Real.exp (-2900) * (Real.exp 2900 * 10 ^ 2002) := h2
      _ = (Real.exp (-2900) * Real.exp 2900) * 10 ^ 2002 := by ring
      _ = 10 ^ 2002 := by rw [h0, one_mul]
      _ = (100 : ℝ) ^ 1001 := hpow.symm
  unfold poissonTerm
  rw [show (-3000 : ℝ) = -100 + -2900 by norm_num, Real.exp_add, mul_div_assoc]
  exact mul_lt_mul_of_pos_left hmain (Real.exp_pos (-100))

/-- The iteration cap is reached at `lam = 100`, `p = 1 - e^(-3000)`: the CDF
stays below `p` through `n = 1000`. -/
theorem qpois_cap_inputs : ∀ m ≤ 1000, poissonCDF 100 m < 1 - Real.exp (-3000) := by
  intro m hm
  exact lt_of_le_of_lt (poissonCDF_mono_idx (by norm_num) hm)
    (poissonCDF_lt_one_sub (by norm_num) 1000 poissonTerm_100_1001_gt)

/-! ### Claim C4 -/

/-- C4 counterexample: the claim asserts `p ≥ 1` returns `+infinity` for all
inputs, but the source checks `lambda ≤ 0` first, so `qpois(2, -1) = 0`. -/
theorem C4_qpois_edge_counterexample : qpois 2 (-1) = 0 ∧ qpois 2 (-1) ≠ ⊤ := by
  have h : qpois 2 (-1) = 0 := by rw [qpois, if_pos (by norm_num : (-1 : ℝ) ≤ 0)]
  refine ⟨h, by rw [h]; simp⟩

/-- C4 (amended): the edge cases hold with the source's guard order
(`lambda ≤ 0` first, then `p ≤ 0`, then `p ≥ 1`), and in the summation regime
`0 < lambda ≤ 100`, `0 < p < 1` the result is the least `n` with
`CDF(n) ≥ p` when one exists below the cap, and `1000` (the last `n`
reached, a silent truncation) when the CDF stays below `p` through the
1000-iteration cap. -/
theorem C4_qpois_quantile_spec :
    (∀ p lam : ℝ, lam ≤ 0 → qpois p lam = 0) ∧
    (∀ p lam : ℝ, 0 < lam → p ≤ 0 → qpois p lam = 0) ∧
    (∀ p lam : ℝ, 0 < lam → 1 ≤ p → qpois p lam = ⊤) ∧
    (∀ p lam : ℝ, 0 < lam → lam ≤ 100 → 0 < p → p < 1 →
      (∀ m ≤ 1000, poissonCDF lam m < p) → qpois p lam = (1000 : ℕ∞)) ∧
    (∀ p lam : ℝ, ∀ m₀ : ℕ, 0 < lam → lam ≤ 100 → 0 < p → p < 1 → m₀ ≤ 1000 →
      p ≤ poissonCDF lam m₀ →
      ∃ r : ℕ, qpois p lam = (r : ℕ∞) ∧ IsLeast {m : ℕ | p ≤ poissonCDF lam m} r) := by
  refine ⟨fun p lam h => by rw [qpois, if_pos h], ?_, ?_, ?_, ?_⟩
  · intro p lam h1 h2
    rw [qpois, if_neg (not_le.2 h1), if_pos h2]
  · intro p lam h1 h2
    rw [qpois, if_neg (not_le.2 h1), if_neg (not_le.2 (by linarith)), if_pos h2]
  · intro p lam h1 h2 h3 h4 hcap
    obtain ⟨r, hr, hr1000, hror, hbelow⟩ := qpois_summation_spec h1 h2 h3 h4
    rcases hror with hge | hcaphit
    · exact absurd hge (not_le.2 (hcap r hr1000))
    · rw [hr, hcaphit]; rfl
  · intro p lam m₀ h1 h2 h3 h4 hm₀ hCDF
    obtain ⟨r, hr, hr1000, hror, hbelow⟩ := qpois_summation_spec h1 h2 h3 h4
    refine ⟨r, hr, ⟨?_, fun m hm => ?_⟩⟩
    · rcases hror with hge | hcaphit
      · exact hge
      · rcases Nat.lt_or_ge m₀ 1000 with hlt | hge1000
        · exact absurd (hbelow m₀ (by omega)) (not_lt.2 hCDF)
        · have : m₀ = 1000 := by omega
          subst this
          rw [hcaphit]
          exact hCDF
    · by_contra hcon
      exact absurd (hbelow m (by omega)) (not_lt.2 hm)

/-- Witness for the amended C4: all five conjuncts applied at concrete
inputs, including a genuine cap hit at `lam = 100`, `p = 1 - e^(-3000)` and a
least-quantile instance at `lam = 1`, `p = 1/2`. -/
theorem C4_qpois_quantile_spec_witness :
    qpois (1/2) (-1) = 0 ∧ qpois (-1) 1 = 0 ∧ qpois 2 1 = ⊤ ∧
    qpois (1 - Real.exp (-3000)) 100 = (1000 : ℕ∞) ∧
    (∃ r : ℕ, qpois (1/2) 1 = (r : ℕ∞) ∧
      IsLeast {m : ℕ | (1/2 : ℝ) ≤ poissonCDF 1 m} r) := by
  have hp0 : (0 : ℝ) < 1 - Real.exp (-3000) := by
    have := Real.exp_lt_one_iff.2 (show (-3000 : ℝ) < 0 by norm_num)
    linarith
  have hp1 : (1 : ℝ) - Real.exp (-3000) < 1 := by
    have := Real.exp_pos (-3000)
    linarith
  have hcdf11 : (1/2 : ℝ) ≤ poissonCDF 1 1 := by
    have h : poissonCDF 1 1 = Real.exp (-1) + Real.exp (-1) := by
      simp [poissonCDF, poissonTerm, Finset.sum_range_succ]
    rw [h]
    nlinarith [Real.exp_neg_one_gt_d9]
  exact ⟨C4_qpois_quantile_spec.1 (1/2) (-1) (by norm_num),
    C4_qpois_quantile_spec.2.1 (-1) 1 (by norm_num) (by norm_num),
    C4_qpois_quantile_spec.2.2.1 2 1 (by norm_num) (by norm_num),
    C4_qpois_quantile_spec.2.2.2.1 (1 - Real.exp (-3000)) 100 (by norm_num) (by norm_num)
      hp0 hp1 qpois_cap_inputs,
    C4_qpois_quantile_spec.2.2.2.2 (1/2) 1 1 (by norm_num) (by norm_num) (by norm_num)
      (by norm_num) (by norm_num) hcdf11⟩

/-! ### The Poisson CDF is antitone in `lambda` -/

theorem sum_deriv_terms (x : ℝ) (n : ℕ) :
    ∑ k ∈ Finset.range (n + 1),
      (Real.exp (-x) * (-1) * x ^ k + Real.exp (-x) * ((k : ℝ) * x ^ (k - 1))) /
        (Nat.factorial k : ℝ) =
      -(Real.exp (-x) * x ^ n / (Nat.factorial n : ℝ)) := by
  induction n with
  | zero => simp [Nat.factorial]
  | succ m ih =>
    rw [Finset.sum_range_succ, ih]
    have h1 : (Nat.factorial m : ℝ) ≠ 0 := Nat.cast_ne_zero.2 (Nat.factorial_ne_zero m)
    have h2 : ((m : ℝ) + 1) ≠ 0 := by positivity
    rw [Nat.factorial_succ]
    push_cast
    field_simp
    ring

theorem hasDerivAt_poissonCDF (n : ℕ) (x : ℝ) :
    HasDerivAt (fun t => poissonCDF t n) (-(poissonTerm x n)) x := by
  have hterm : ∀ k : ℕ,
      HasDerivAt (fun t : ℝ => Real.exp (-t) * t ^ k / (Nat.factorial k : ℝ))
        ((Real.exp (-x) * (-1) * x ^ k + Real.exp (-x) * ((k : ℝ) * x ^ (k - 1))) /
          (Nat.factorial k : ℝ)) x := by
    intro k
    exact ((hasDerivAt_neg' x).exp.mul (hasDerivAt_pow k x)).div_const _
  have hsum := HasDerivAt.sum (fun k (_ : k ∈ Finset.range (n + 1)) => hterm k)
  rw [sum_deriv_terms x n] at hsum
  exact hsum

theorem poissonCDF_anti_lam (n : ℕ) : AntitoneOn (fun lam => poissonCDF lam n) (Set.Ici 0) := by
  have hd : ∀ x : ℝ, HasDerivAt (fun t => poissonCDF t n) (-(poissonTerm x n)) x :=
    hasDerivAt_poissonCDF n
  apply antitoneOn_of_deriv_nonpos (convex_Ici 0)
  · exact (Differentiable.continuous fun x => (hd x).differentiableAt).continuousOn
  · exact fun x _ => (hd x).differentiableAt.differentiableWithinAt
  · intro x hx
    rw [interior_Ici] at hx
    rw [(hd x).deriv]
    have := poissonTerm_nonneg (le_of_lt hx) n
    linarith

/-! ### Monotonicity of `qpois` within each regime -/

theorem qpois_mono_p_le100 (p₁ p₂ lam : ℝ) (hp : p₁ ≤ p₂) (h100 : lam ≤ 100) :
    qpois p₁ lam ≤ qpois p₂ lam := by
  by_cases hlam : lam ≤ 0
  · rw [qpois, if_pos hlam, qpois, if_pos hlam]
  · push_neg at hlam
    by_cases hp1 : p₁ ≤ 0
    · rw [qpois, if_neg (not_le.2 hlam), if_pos hp1]; exact zero_le _
    · push_neg at hp1
      by_cases hp2 : 1 ≤ p₂
      · have htop : qpois p₂ lam = ⊤ := by
          rw [qpois, if_neg (not_le.2 hlam), if_neg (not_le.2 (by linarith)), if_pos hp2]
        rw [htop]; exact le_top
      · push_neg at hp2
        have hp11 : p₁ < 1 := lt_of_le_of_lt hp hp2
        have hp21 : 0 < p₂ := lt_of_lt_of_le hp1 hp
        obtain ⟨r₁, e₁, hr₁, o₁, b₁⟩ := qpois_summation_spec hlam h100 hp1 hp11
        obtain ⟨r₂, e₂, hr₂, o₂, b₂⟩ := qpois_summation_spec hlam h100 hp21 hp2
        rw [e₁, e₂]
        refine Nat.cast_le.2 ?_
        by_contra hcon
        push_neg at hcon
        have h1 : poissonCDF lam r₂ < p₁ := b₁ r₂ hcon
        rcases o₂ with h2 | h2
        · linarith
        · omega

theorem qpois_mono_lam_le100 (p lam₁ lam₂ : ℝ) (h12 : lam₁ ≤ lam₂) (h100 : lam₂ ≤ 100) :
    qpois p lam₁ ≤ qpois p lam₂ := by
  by_cases hl1 : lam₁ ≤ 0
  · rw [qpois, if_pos hl1]; exact zero_le _
  · push_neg at hl1
    have hl2 : 0 < lam₂ := lt_of_lt_of_le hl1 h12
    by_cases hp0 : p ≤ 0
    · rw [qpois, if_neg (not_le.2 hl1), if_pos hp0]; exact zero_le _
    · push_neg at hp0
      by_cases hp1 : 1 ≤ p
      · have htop : qpois p lam₂ = ⊤ := by
          rw [qpois, if_neg (not_le.2 hl2), if_neg (not_le.2 (by linarith)), if_pos hp1]
        rw [htop]; exact le_top
      · push_neg at hp1
        obtain ⟨r₁, e₁, hr₁, o₁, b₁⟩ := qpois_summation_spec hl1 (le_trans h12 h100) hp0 hp1
        obtain ⟨r₂, e₂, hr₂, o₂, b₂⟩ := qpois_summation_spec hl2 h100 hp0 hp1
        rw [e₁, e₂]
        refine Nat.cast_le.2 ?_
        by_contra hcon
        push_neg at hcon
        have hcdf : poissonCDF lam₁ r₂ < p := b₁ r₂ hcon
        rcases o₂ with h2 | h2
        · have hanti : poissonCDF lam₂ r₂ ≤ poissonCDF lam₁ r₂ :=
            poissonCDF_anti_lam r₂ (Set.mem_Ici.2 hl1.le)
              (Set.mem_Ici.2 (le_trans hl1.le h12)) h12
          linarith
        · omega

theorem qpois_gt100_eq {p lam : ℝ} (h100 : 100 < lam) (hp0 : 0 < p) (hp1 : p < 1) :
    qpois p lam = (((max 0 (round (lam + qpoisZ p * Real.sqrt lam))).toNat : ℕ) : ℕ∞) := by
  rw [qpois, if_neg (not_le.2 (by linarith : (0 : ℝ) < lam)), if_neg (not_le.2 hp0),
    if_neg (not_le.2 hp1), if_pos h100]

theorem qpois_mono_lam_gt100 (p lam₁ lam₂ : ℝ) (h1 : 100 < lam₁) (h12 : lam₁ ≤ lam₂) :
    qpois p lam₁ ≤ qpois p lam₂ := by
  have h2 : 100 < lam₂ := lt_of_lt_of_le h1 h12
  by_cases hp0 : p ≤ 0
  · rw [qpois, if_neg (not_le.2 (by linarith : (0 : ℝ) < lam₁)), if_pos hp0]; exact zero_le _
  · push_neg at hp0
    by_cases hp1 : 1 ≤ p
    · have htop : qpois p lam₂ = ⊤ := by
        rw [qpois, if_neg (not_le.2 (by linarith : (0 : ℝ) < lam₂)),
          if_neg (not_le.2 (by linarith)), if_pos hp1]
      rw [htop]; exact le_top
    · push_neg at hp1
      rw [qpois_gt100_eq h1 hp0 hp1, qpois_gt100_eq h2 hp0 hp1]
      set z := qpoisZ p with hz_def
      have hs1 : (0 : ℝ) ≤ lam₁ := by linarith
      have hsq1 : Real.sqrt lam₁ ^ 2 = lam₁ := Real.sq_sqrt hs1
      have hsq2 : Real.sqrt lam₂ ^ 2 = lam₂ := Real.sq_sqrt (by linarith)
      have hss : Real.sqrt lam₁ ≤ Real.sqrt lam₂ := Real.sqrt_le_sqrt h12
      have hspos : 0 ≤ Real.sqrt lam₁ := Real.sqrt_nonneg _
      by_cases hz : 0 ≤ z
      · have hval : lam₁ + z * Real.sqrt lam₁ ≤ lam₂ + z * Real.sqrt lam₂ :=
          add_le_add h12 (mul_le_mul_of_nonneg_left hss hz)
        exact Nat.cast_le.2 (Int.toNat_le_toNat (max_le_max le_rfl (round_le_round_of_le hval)))
      · push_neg at hz
        by_cases hzl : Real.sqrt lam₁ ≤ -z
        · have hval : lam₁ + z * Real.sqrt lam₁ ≤ 0 := by nlinarith [hsq1, hspos]
          have hr0 : round (lam₁ + z * Real.sqrt lam₁) ≤ 0 := by
            have h := round_le_round_of_le hval
            simpa using h
          rw [max_eq_left hr0]
          simp
        · push_neg at hzl
          have hpos : 0 ≤ Real.sqrt lam₁ + Real.sqrt lam₂ + z := by nlinarith
          have hkey : 0 ≤ (Real.sqrt lam₂ - Real.sqrt lam₁) *
              (Real.sqrt lam₁ + Real.sqrt lam₂ + z) :=
            mul_nonneg (sub_nonneg.2 hss) hpos
          have hval : lam₁ + z * Real.sqrt lam₁ ≤ lam₂ + z * Real.sqrt lam₂ := by
            nlinarith [hkey, hsq1, hsq2]
          exact Nat.cast_le.2 (Int.toNat_le_toNat (max_le_max le_rfl (round_le_round_of_le hval)))

theorem qpois_ne_top {p lam : ℝ} (hp1 : p < 1) : qpois p lam ≠ ⊤ := by
  rw [qpois]
  split_ifs with h1 h2 h3 h4
  · simp
  · simp
  · linarith
  · exact ENat.coe_ne_top _
  · exact ENat.coe_ne_top _

/-! ### The symmetric bounds `qpois 0.025` and `qpois 0.975` -/

theorem qpoisT_0975_eq : qpoisT 0.975 = qpoisT 0.025 := by
  rw [qpoisT, qpoisT, if_neg (by norm_num), if_pos (by norm_num)]
  norm_num

theorem qpoisT_0025_ge_two : 2 ≤ qpoisT 0.025 := by
  rw [qpoisT, if_pos (by norm_num)]
  have h1 : Real.log (0.025 : ℝ) = -Real.log 40 := by
    rw [show (0.025 : ℝ) = (40 : ℝ)⁻¹ by norm_num, Real.log_inv]
  have h2 : (2 : ℝ) ≤ Real.log 40 := by
    rw [Real.le_log_iff_exp_le (by norm_num)]
    calc Real.exp 2 = Real.exp 1 ^ 2 := by rw [Real.exp_one_pow]; norm_num
      _ ≤ 2.7182818286 ^ 2 := pow_le_pow_left₀ (Real.exp_pos 1).le Real.exp_one_lt_d9.le 2
      _ ≤ 40 := by norm_num
  rw [h1]
  have h3 : (4 : ℝ) ≤ -2 * -Real.log 40 := by linarith
  calc (2 : ℝ) = Real.sqrt 4 := by
        rw [show (4 : ℝ) = 2 ^ 2 by norm_num, Real.sqrt_sq (by norm_num : (0 : ℝ) ≤ 2)]
    _ ≤ Real.sqrt (-2 * -Real.log 40) := Real.sqrt_le_sqrt h3

/-- For `t ≥ 2` the Abramowitz-Stegun rational correction stays below `t`,
so the resulting `z` is nonnegative. -/
theorem asCorrection_le {t : ℝ} (ht : 2 ≤ t) :
    0 ≤ t - (2.515517 + 0.802853 * t + 0.010328 * t * t) /
      (1 + 1.432788 * t + 0.189269 * t * t + 0.001308 * t * t * t) := by
  have ht0 : (0 : ℝ) < t := by linarith
  have hden : (0 : ℝ) < 1 + 1.432788 * t + 0.189269 * t * t + 0.001308 * t * t * t := by
    nlinarith [mul_pos ht0 ht0, mul_pos (mul_pos ht0 ht0) ht0]
  rw [sub_nonneg, div_le_iff₀ hden]
  nlinarith [sq_nonneg (t - 2), mul_nonneg (sub_nonneg.2 ht) (sub_nonneg.2 ht),
    mul_nonneg (mul_nonneg (sub_nonneg.2 ht) (sub_nonneg.2 ht)) (sub_nonneg.2 ht)]

theorem qpoisZ_0975_nonneg : 0 ≤ qpoisZ 0.975 := by
  rw [qpoisZ, if_neg (by norm_num), qpoisT_0975_eq]
  exact asCorrection_le qpoisT_0025_ge_two

theorem qpoisZ_0025_eq_neg : qpoisZ 0.025 = -qpoisZ 0.975 := by
  rw [qpoisZ, qpoisZ, if_pos (by norm_num), if_neg (by norm_num), qpoisT_0975_eq]

/-- The 2.5% Poisson quantile never exceeds the 97.5% quantile. -/
theorem qpois_lower_le_upper (lam : ℝ) : qpois 0.025 lam ≤ qpois 0.975 lam := by
  by_cases h100 : lam ≤ 100
  · exact qpois_mono_p_le100 0.025 0.975 lam (by norm_num) h100
  · push_neg at h100
    rw [qpois_gt100_eq h100 (by norm_num) (by norm_num),
      qpois_gt100_eq h100 (by norm_num) (by norm_num)]
    have hz := qpoisZ_0975_nonneg
    have hval : lam + qpoisZ 0.025 * Real.sqrt lam ≤ lam + qpoisZ 0.975 * Real.sqrt lam := by
      rw [qpoisZ_0025_eq_neg]
      have := Real.sqrt_nonneg lam
      nlinarith
    exact Nat.cast_le.2 (Int.toNat_le_toNat (max_le_max le_rfl (round_le_round_of_le hval)))

/-! ### Nonnegativity of the Omori integral -/

theorem calculateOmoriIntegral_nonneg {rs re c p : ℝ} (hrs : 0 ≤ rs) (hre : rs ≤ re)
    (hc : 0 < c) : 0 ≤ calculateOmoriIntegral rs re c p := by
  rw [calculateOmoriIntegral]
  split_ifs with h
  · have h1 : (0 : ℝ) < rs + c := by linarith
    have h2 : rs + c ≤ re + c := by linarith
    have := Real.log_le_log h1 h2
    linarith
  · push_neg at h
    have hbase1 : (0 : ℝ) < rs + c := by linarith
    have hbase2 : (0 : ℝ) < re + c := by linarith
    rcases lt_or_le p 1 with hp | hp
    · have hnum : (rs + c) ^ (1 - p) ≤ (re + c) ^ (1 - p) :=
        Real.rpow_le_rpow hbase1.le (by linarith) (by linarith)
      exact div_nonneg (sub_nonneg.2 hnum) (by linarith)
    · have hp1 : 1 < p := by
        rcases eq_or_lt_of_le hp with h' | h'
        · rw [← h'] at h; norm_num at h
        · exact h'
      have hnum : (re + c) ^ (1 - p) ≤ (rs + c) ^ (1 - p) :=
        Real.antitoneOn_rpow_Ioi_of_exponent_nonpos (by linarith)
          (Set.mem_Ioi.2 hbase1) (Set.mem_Ioi.2 hbase2) (by linarith)
      exact div_nonneg_iff.2 (Or.inr ⟨by linarith, by linarith⟩)

/-- Bounds of the per-band probability `100(1 - e^(-v))` for `v ≥ 0`. -/
theorem probability_bounds {v : ℝ} (hv : 0 ≤ v) :
    0 ≤ 100 * (1 - Real.exp (-v)) ∧ 100 * (1 - Real.exp (-v)) ≤ 100 := by
  have h1 : Real.exp (-v) ≤ 1 := Real.exp_le_one_iff.2 (by linarith)
  have h2 := Real.exp_pos (-v)
  constructor <;> nlinarith

/-! ### Claim C6 -/

/-- Second-band expected count of a forecast outcome (`0` on error); used to
state the C6 counterexample without binders. -/
noncomputable def band2Average (e : Except String DurationForecast) : ℝ :=
  match e with
  | Except.ok F => F.m2.averageNumber
  | Except.error _ => 0

/-- C6 counterexample: the preconditions listed by the claim do not constrain
`b`; with `b = -1` (and `duration = 1 > 0`, `rs = 0 ≥ 0`, `c = 1 > 0`,
thresholds `1 > 0 > -1` strictly decreasing) the second band's expected count
is strictly negative, refuting `expectedCount ≥ 0`. -/
theorem C6_output_guarantee_counterexample :
    band2Average (calculateDurationForecast 1 0 1 0 (-1) 0 ⟨0, -1, 1, 1⟩) < 0 := by
  obtain ⟨F, hF, _, _, ha2, _⟩ :=
    durationForecast_fields 1 0 1 0 (-1) 0 ⟨0, -1, 1, 1⟩ (by norm_num) le_rfl
  rw [hF]
  show F.m2.averageNumber < 0
  rw [ha2]
  have hI : calculateOmoriIntegral 0 (0 + 1) (1 : ℝ) 1 = Real.log 2 := by
    rw [calculateOmoriIntegral, if_pos (by norm_num)]
    norm_num
  show calculateExpectedAftershocks 0 (-1) 0 0 (calculateOmoriIntegral 0 (0 + 1) 1 1) -
      calculateExpectedAftershocks 0 (-1) 0 1 (calculateOmoriIntegral 0 (0 + 1) 1 1) < 0
  rw [hI]
  unfold calculateExpectedAftershocks
  have he1 : (0 : ℝ) + -1 * (0 - (0 - 0.05)) = -0.05 := by norm_num
  have he2 : (0 : ℝ) + -1 * (0 - (1 - 0.05)) = 0.95 := by norm_num
  rw [he1, he2]
  have hlt : (10 : ℝ) ^ (-0.05 : ℝ) < (10 : ℝ) ^ (0.95 : ℝ) :=
    Real.rpow_lt_rpow_of_exponent_lt (by norm_num) (by norm_num)
  have hlog : 0 < Real.log 2 := Real.log_pos (by norm_num)
  nlinarith

/-- C6 (amended): with the additional precondition `b ≥ 0`, every successful
forecast has nonnegative per-band expected counts, probabilities in
`[0, 100]`, and finite confidence bounds with `lowerBound ≤ upperBound`. -/
theorem C6_output_guarantees (duration mag m1 m2 m3 rs : ℝ) (params : ModelParameters)
    (hd : 0 < duration) (hrs : 0 ≤ rs) (hc : 0 < params.c) (h12 : m2 < m1) (h23 : m3 < m2)
    (hb : 0 ≤ params.b) :
    ∃ F, calculateDurationForecast duration mag m1 m2 m3 rs params = Except.ok F ∧
      (0 ≤ F.m1.averageNumber ∧ 0 ≤ F.m1.probability ∧ F.m1.probability ≤ 100 ∧
        F.m1.lowerBound ≤ F.m1.upperBound ∧ F.m1.upperBound ≠ ⊤) ∧
      (0 ≤ F.m2.averageNumber ∧ 0 ≤ F.m2.probability ∧ F.m2.probability ≤ 100 ∧
        F.m2.lowerBound ≤ F.m2.upperBound ∧ F.m2.upperBound ≠ ⊤) ∧
      (0 ≤ F.m3.averageNumber ∧ 0 ≤ F.m3.probability ∧ F.m3.probability ≤ 100 ∧
        F.m3.lowerBound ≤ F.m3.upperBound ∧ F.m3.upperBound ≠ ⊤) := by
  obtain ⟨F, hF, hdur, ha1, ha2, ha3, hp1, hp2, hp3, hl1, hu1, hl2, hu2, hl3, hu3⟩ :=
    durationForecast_fields duration mag m1 m2 m3 rs params hd hrs
  have hI : 0 ≤ calculateOmoriIntegral rs (rs + duration) params.c params.p :=
    calculateOmoriIntegral_nonneg hrs (by linarith) hc
  have hv1 : 0 ≤ F.m1.averageNumber := by
    rw [ha1]
    exact mul_nonneg (Real.rpow_pos_of_pos (by norm_num) _).le hI
  have hv2 : 0 ≤ F.m2.averageNumber := by
    rw [ha2]
    exact sub_nonneg.2 (calculateExpectedAftershocks_anti params.a params.b mag m2 m1 _
      hb hI h12.le)
  have hv3 : 0 ≤ F.m3.averageNumber := by
    rw [ha3]
    exact sub_nonneg.2 (calculateExpectedAftershocks_anti params.a params.b mag m3 m2 _
      hb hI h23.le)
  have hb1 := probability_bounds hv1
  have hb2 := probability_bounds hv2
  have hb3 := probability_bounds hv3
  refine ⟨F, hF, ⟨hv1, ?_, ?_, ?_, ?_⟩, ⟨hv2, ?_, ?_, ?_, ?_⟩, ⟨hv3, ?_, ?_, ?_, ?_⟩⟩
  · rw [hp1]; exact hb1.1
  · rw [hp1]; exact hb1.2
  · rw [hl1, hu1]; exact qpois_lower_le_upper _
  · rw [hu1]; exact qpois_ne_top (by norm_num)
  · rw [hp2]; exact hb2.1
  · rw [hp2]; exact hb2.2
  · rw [hl2, hu2]; exact qpois_lower_le_upper _
  · rw [hu2]; exact qpois_ne_top (by norm_num)
  · rw [hp3]; exact hb3.1
  · rw [hp3]; exact hb3.2
  · rw [hl3, hu3]; exact qpois_lower_le_upper _
  · rw [hu3]; exact qpois_ne_top (by norm_num)

/-- Witness for the amended C6 at `duration = 1`, `mag = 7.8`, thresholds
`5 > 4 > 3`, `rs = 0`, in-bounds parameters. -/
theorem C6_output_guarantees_witness :
    (0 : ℝ) < 1 ∧ (0 : ℝ) ≤ 0 ∧ (0 : ℝ) < (0.04 : ℝ) ∧ (4 : ℝ) < 5 ∧ (3 : ℝ) < 4 ∧
      (0 : ℝ) ≤ (1.03 : ℝ) ∧
    ∃ F, calculateDurationForecast 1 7.8 5 4 3 0 ⟨-1.59, 1.03, 0.04, 1.07⟩ = Except.ok F ∧
      (0 ≤ F.m1.averageNumber ∧ 0 ≤ F.m1.probability ∧ F.m1.probability ≤ 100 ∧
        F.m1.lowerBound ≤ F.m1.upperBound ∧ F.m1.upperBound ≠ ⊤) ∧
      (0 ≤ F.m2.averageNumber ∧ 0 ≤ F.m2.probability ∧ F.m2.probability ≤ 100 ∧
        F.m2.lowerBound ≤ F.m2.upperBound ∧ F.m2.upperBound ≠ ⊤) ∧
      (0 ≤ F.m3.averageNumber ∧ 0 ≤ F.m3.probability ∧ F.m3.probability ≤ 100 ∧
        F.m3.lowerBound ≤ F.m3.upperBound ∧ F.m3.upperBound ≠ ⊤) :=
  ⟨by norm_num, le_rfl, by norm_num, by norm_num, by norm_num, by norm_num,
    C6_output_guarantees 1 7.8 5 4 3 0 ⟨-1.59, 1.03, 0.04, 1.07⟩ (by norm_num) le_rfl
      (by norm_num) (by norm_num) (by norm_num) (by norm_num)⟩

/-! ### Precise window for the Abramowitz-Stegun value near the median

On the interval `[1.17741002229, 1.17741002289]`, which contains both
`sqrt(2 ln 2)` and `sqrt(1.386294362)`, the quantity `t - R(t)` (the `z` of
the approximation before reflection) lies strictly between `-1.5e-7` and
`-0.5e-7`: the fitted rational approximation is slightly *negative* at the
median, although the true normal quantile there is `0`. -/

theorem asE_window {t : ℝ} (h1 : (1.17741002229 : ℝ) ≤ t) (h2 : t ≤ 1.17741002289) :
    -(3/2) / 10 ^ 7 < t - (2.515517 + 0.802853 * t + 0.010328 * t * t) /
        (1 + 1.432788 * t + 0.189269 * t * t + 0.001308 * t * t * t) ∧
    t - (2.515517 + 0.802853 * t + 0.010328 * t * t) /
        (1 + 1.432788 * t + 0.189269 * t * t + 0.001308 * t * t * t) < -(1/2) / 10 ^ 7 := by
  have ht0 : (0 : ℝ) < t := by linarith
  have hden : (0 : ℝ) < 1 + 1.432788 * t + 0.189269 * t * t + 0.001308 * t * t * t := by
    nlinarith [mul_pos ht0 ht0, mul_pos (mul_pos ht0 ht0) ht0]
  have hp2l : (1.17741002229 : ℝ) ^ 2 ≤ t ^ 2 := pow_le_pow_left₀ (by norm_num) h1 2
  have hp3l : (1.17741002229 : ℝ) ^ 3 ≤ t ^ 3 := pow_le_pow_left₀ (by norm_num) h1 3
  have hp4l : (1.17741002229 : ℝ) ^ 4 ≤ t ^ 4 := pow_le_pow_left₀ (by norm_num) h1 4
  have hp2u : t ^ 2 ≤ (1.17741002289 : ℝ) ^ 2 := pow_le_pow_left₀ ht0.le h2 2
  have hp3u : t ^ 3 ≤ (1.17741002289 : ℝ) ^ 3 := pow_le_pow_left₀ ht0.le h2 3
  have hp4u : t ^ 4 ≤ (1.17741002289 : ℝ) ^ 4 := pow_le_pow_left₀ ht0.le h2 4
  constructor
  · have key : 0 < t * (1 + 1.432788 * t + 0.189269 * t * t + 0.001308 * t * t * t) -
        (2.515517 + 0.802853 * t + 0.010328 * t * t) +
        (3/2) / 10 ^ 7 * (1 + 1.432788 * t + 0.189269 * t * t + 0.001308 * t * t * t) := by
      nlinarith [hp2l, hp3l, hp4l, hp2u, hp3u, hp4u]
    have heq : t - (2.515517 + 0.802853 * t + 0.010328 * t * t) /
          (1 + 1.432788 * t + 0.189269 * t * t + 0.001308 * t * t * t) + (3/2) / 10 ^ 7 =
        (t * (1 + 1.432788 * t + 0.189269 * t * t + 0.001308 * t * t * t) -
          (2.515517 + 0.802853 * t + 0.010328 * t * t) +
          (3/2) / 10 ^ 7 * (1 + 1.432788 * t + 0.189269 * t * t + 0.001308 * t * t * t)) /
        (1 + 1.432788 * t + 0.189269 * t * t + 0.001308 * t * t * t) := by
      field_simp
      ring_nf
      exact Or.inl trivial
    have hdiv := div_pos key hden
    rw [← heq] at hdiv
    linarith
  · have key : t * (1 + 1.432788 * t + 0.189269 * t * t + 0.001308 * t * t * t) -
        (2.515517 + 0.802853 * t + 0.010328 * t * t) +
        (1/2) / 10 ^ 7 * (1 + 1.432788 * t + 0.189269 * t * t + 0.001308 * t * t * t) < 0 := by
      nlinarith [hp2l, hp3l, hp4l, hp2u, hp3u, hp4u]
    have heq : t - (2.515517 + 0.802853 * t + 0.010328 * t * t) /
          (1 + 1.432788 * t + 0.189269 * t * t + 0.001308 * t * t * t) + (1/2) / 10 ^ 7 =
        (t * (1 + 1.432788 * t + 0.189269 * t * t + 0.001308 * t * t * t) -
          (2.515517 + 0.802853 * t + 0.010328 * t * t) +
          (1/2) / 10 ^ 7 * (1 + 1.432788 * t + 0.189269 * t * t + 0.001308 * t * t * t)) /
        (1 + 1.432788 * t + 0.189269 * t * t + 0.001308 * t * t * t) := by
      field_simp
      ring_nf
      exact Or.inl trivial
    have hdiv := div_neg_of_neg_of_pos key hden
    rw [← heq] at hdiv
    linarith

theorem qpoisT_half : qpoisT (1/2) = Real.sqrt (2 * Real.log 2) := by
  rw [qpoisT, if_neg (by norm_num)]
  rw [show (1 : ℝ) - 1/2 = (2 : ℝ)⁻¹ by norm_num, Real.log_inv]
  congr 1
  ring

theorem t_half_bounds :
    (1.17741002229 : ℝ) ≤ qpoisT (1/2) ∧ qpoisT (1/2) ≤ 1.17741002289 := by
  rw [qpoisT_half]
  have hpos : (0 : ℝ) < 2 * Real.log 2 := by
    have := Real.log_pos (by norm_num : (1 : ℝ) < 2)
    linarith
  have hs : Real.sqrt (2 * Real.log 2) ^ 2 = 2 * Real.log 2 := Real.sq_sqrt hpos.le
  have hnn : 0 ≤ Real.sqrt (2 * Real.log 2) := Real.sqrt_nonneg _
  have hlo := Real.log_two_gt_d9
  have hhi := Real.log_two_lt_d9
  constructor
  · nlinarith [hs, hnn, hlo]
  · nlinarith [hs, hnn, hhi]

theorem p1_lt_half : Real.exp (-0.693147181) < 0.5 := by
  have h : Real.log 2 < 0.693147181 := lt_trans Real.log_two_lt_d9 (by norm_num)
  have h2 : Real.exp (-0.693147181) < Real.exp (-Real.log 2) := Real.exp_lt_exp.2 (by linarith)
  have h3 : Real.exp (-Real.log 2) = (2 : ℝ)⁻¹ := by
    rw [Real.exp_neg, Real.exp_log (by norm_num : (0 : ℝ) < 2)]
  rw [h3] at h2
  linarith [h2]

theorem qpoisT_p1 : qpoisT (Real.exp (-0.693147181)) = Real.sqrt 1.386294362 := by
  rw [qpoisT, if_pos p1_lt_half, Real.log_exp]
  norm_num

theorem t_p1_bounds :
    (1.17741002229 : ℝ) ≤ qpoisT (Real.exp (-0.693147181)) ∧
      qpoisT (Real.exp (-0.693147181)) ≤ 1.17741002289 := by
  rw [qpoisT_p1]
  have hs : Real.sqrt (1.386294362 : ℝ) ^ 2 = 1.386294362 := Real.sq_sqrt (by norm_num)
  have hnn : 0 ≤ Real.sqrt (1.386294362 : ℝ) := Real.sqrt_nonneg _
  constructor
  · nlinarith [hs, hnn]
  · nlinarith [hs, hnn]

theorem qpoisZ_half_window :
    -(3/2) / 10 ^ 7 < qpoisZ (1/2) ∧ qpoisZ (1/2) < -(1/2) / 10 ^ 7 := by
  rw [qpoisZ, if_neg (by norm_num)]
  exact asE_window t_half_bounds.1 t_half_bounds.2

theorem qpoisZ_p1_window :
    (1/2) / 10 ^ 7 < qpoisZ (Real.exp (-0.693147181)) ∧
      qpoisZ (Real.exp (-0.693147181)) < (3/2) / 10 ^ 7 := by
  have hlt : Real.exp (-0.693147181) < (0.5 : ℝ) := p1_lt_half
  rw [qpoisZ, if_pos hlt]
  have h := asE_window t_p1_bounds.1 t_p1_bounds.2
  constructor
  · linarith [h.2]
  · linarith [h.1]

theorem sqrt_lam14 : Real.sqrt (100000000000000 : ℝ) = 10000000 := by
  rw [show (100000000000000 : ℝ) = 10000000 ^ 2 by norm_num,
    Real.sqrt_sq (by norm_num : (0 : ℝ) ≤ 10000000)]

theorem qpois_half_lam14 : qpois (1/2) 100000000000000 = (99999999999999 : ℕ∞) := by
  rw [qpois_gt100_eq (by norm_num) (by norm_num) (by norm_num), sqrt_lam14]
  have hw := qpoisZ_half_window
  have hround : round ((100000000000000 : ℝ) + qpoisZ (1/2) * 10000000) = 99999999999999 := by
    rw [round_eq]
    apply Int.floor_eq_iff.2
    constructor
    · push_cast
      nlinarith [hw.1]
    · push_cast
      nlinarith [hw.2]
  rw [hround, show max (0 : ℤ) 99999999999999 = 99999999999999 from max_eq_right (by norm_num)]
  rfl

theorem qpois_p1_lam14 :
    qpois (Real.exp (-0.693147181)) 100000000000000 = (100000000000001 : ℕ∞) := by
  have hp0 : (0 : ℝ) < Real.exp (-0.693147181) := Real.exp_pos _
  have hp1 : Real.exp (-0.693147181) < 1 := by
    have := p1_lt_half
    linarith
  rw [qpois_gt100_eq (by norm_num) hp0 hp1, sqrt_lam14]
  have hw := qpoisZ_p1_window
  have hround : round ((100000000000000 : ℝ) +
      qpoisZ (Real.exp (-0.693147181)) * 10000000) = 100000000000001 := by
    rw [round_eq]
    apply Int.floor_eq_iff.2
    constructor
    · push_cast
      nlinarith [hw.1]
    · push_cast
      nlinarith [hw.2]
  rw [hround,
    show max (0 : ℤ) 100000000000001 = 100000000000001 from max_eq_right (by norm_num)]
  rfl

/-! ### The regime switch at `lambda = 100`, probed at `p = 1 - e^(-648)` -/

theorem q648_pos : (0 : ℝ) < 1 - Real.exp (-648) := by
  have := Real.exp_lt_one_iff.2 (show (-648 : ℝ) < 0 by norm_num)
  linarith

theorem q648_lt_one : 1 - Real.exp (-648) < 1 := by
  have := Real.exp_pos (-648 : ℝ)
  linarith

theorem q648_ge_half : ¬(1 - Real.exp (-648) < (0.5 : ℝ)) := by
  have h1 : Real.exp (-648 : ℝ) ≤ Real.exp (-1) := Real.exp_le_exp.2 (by norm_num)
  have h3 : (2 : ℝ) < Real.exp 1 := lt_trans (by norm_num) Real.exp_one_gt_d9
  have h4 : (0 : ℝ) < Real.exp 1 := Real.exp_pos 1
  have h5 : (Real.exp 1)⁻¹ * Real.exp 1 = 1 := inv_mul_cancel₀ (ne_of_gt h4)
  have h6 : (0 : ℝ) < (Real.exp 1)⁻¹ := inv_pos.2 h4
  have h2 : Real.exp (-1 : ℝ) < 0.5 := by
    rw [Real.exp_neg]
    nlinarith [mul_lt_mul_of_pos_left h3 h6]
  push_neg
  linarith

theorem qpoisT_q648 : qpoisT (1 - Real.exp (-648)) = 36 := by
  rw [qpoisT, if_neg q648_ge_half,
    show (1 : ℝ) - (1 - Real.exp (-648)) = Real.exp (-648) by ring, Real.log_exp,
    show (-2 : ℝ) * -648 = 36 ^ 2 by norm_num,
    Real.sqrt_sq (by norm_num : (0 : ℝ) ≤ 36)]

theorem qpoisZ_q648 : qpoisZ (1 - Real.exp (-648)) = 12875562127 / 358899040 := by
  rw [qpoisZ, if_neg q648_ge_half, qpoisT_q648]
  norm_num

theorem sqrt101_bounds :
    (10.049875621 : ℝ) ≤ Real.sqrt 101 ∧ Real.sqrt 101 ≤ 10.049875622 := by
  have hs : Real.sqrt (101 : ℝ) ^ 2 = 101 := Real.sq_sqrt (by norm_num)
  have hnn : 0 ≤ Real.sqrt (101 : ℝ) := Real.sqrt_nonneg _
  constructor
  · nlinarith [hs, hnn]
  · nlinarith [hs, hnn]

/-- Just above the switch, the normal approximation yields `462`. -/
theorem qpois_q648_101 : qpois (1 - Real.exp (-648)) 101 = (462 : ℕ∞) := by
  rw [qpois_gt100_eq (by norm_num) q648_pos q648_lt_one, qpoisZ_q648]
  have hb := sqrt101_bounds
  have hround : round ((101 : ℝ) + 12875562127 / 358899040 * Real.sqrt 101) = 462 := by
    rw [round_eq]
    apply Int.floor_eq_iff.2
    constructor
    · push_cast
      nlinarith [hb.1]
    · push_cast
      nlinarith [hb.2]
  rw [hround, show max (0 : ℤ) 462 = 462 from max_eq_right (by norm_num)]
  rfl

set_option maxRecDepth 40000 in
/-- Bound `e^(-100) * 100^463 / 463! > e^(-648)`: at `lambda = 100` the CDF at
`462` is still at distance more than `e^(-648)` from `1`. -/
theorem poissonTerm_100_463_gt : Real.exp (-648) < poissonTerm 100 463 := by
  have hNat : ((Nat.factorial 463 : ℕ) : ℝ) * 10 ^ 548 < 27 ^ 548 * 10 ^ 926 := by
    exact_mod_cast (by decide : Nat.factorial 463 * 10 ^ 548 < 27 ^ 548 * 10 ^ 926)
  have h27 : (27 : ℝ) ^ 548 = (2.7 : ℝ) ^ 548 * 10 ^ 548 := by
    rw [← mul_pow]; norm_num
  have hexp27 : (2.7 : ℝ) ^ 548 ≤ Real.exp 548 := by
    calc (2.7 : ℝ) ^ 548 ≤ Real.exp 1 ^ 548 :=
          pow_le_pow_left₀ (by norm_num) (by nlinarith [Real.exp_one_gt_d9]) 548
      _ = Real.exp 548 := by rw [Real.exp_one_pow]; norm_num
  have hkey : ((Nat.factorial 463 : ℕ) : ℝ) < Real.exp 548 * 10 ^ 926 := by
    have hT : (0 : ℝ) < 10 ^ 548 := by positivity
    have h1 : ((Nat.factorial 463 : ℕ) : ℝ) * 10 ^ 548 <
        Real.exp 548 * 10 ^ 926 * 10 ^ 548 := by
      calc ((Nat.factorial 463 : ℕ) : ℝ) * 10 ^ 548 < 27 ^ 548 * 10 ^ 926 := hNat
        _ = (2.7 : ℝ) ^ 548 * (10 ^ 548 * 10 ^ 926) := by rw [h27]; ring
        _ ≤ Real.exp 548 * (10 ^ 548 * 10 ^ 926) :=
          mul_le_mul_of_nonneg_right hexp27 (by positivity)
        _ = Real.exp 548 * 10 ^ 926 * 10 ^ 548 := by ring
    exact lt_of_mul_lt_mul_right h1 hT.le
  have hpow : (100 : ℝ) ^ 463 = 10 ^ 926 := by
    rw [show (100 : ℝ) = 10 ^ 2 by norm_num, ← pow_mul]
  have hfac : (0 : ℝ) < ((Nat.factorial 463 : ℕ) : ℝ) := by
    exact_mod_cast Nat.factorial_pos 463
  have hmain : Real.exp (-548) < (100 : ℝ) ^ 463 / ((Nat.factorial 463 : ℕ) : ℝ) := by
    rw [lt_div_iff₀ hfac]
    have h0 : Real.exp (-548) * Real.exp 548 = 1 := by rw [← Real.exp_add]; norm_num
    have h2 := mul_lt_mul_of_pos_left hkey (Real.exp_pos (-548))
    calc Real.exp (-548) * ((Nat.factorial 463 : ℕ) : ℝ) <
        Real.exp (-548) * (Real.exp 548 * 10 ^ 926) := h2
      _ = (Real.exp (-548) * Real.exp 548) * 10 ^ 926 := by ring
      _ = 10 ^ 926 := by rw [h0, one_mul]
      _ = (100 : ℝ) ^ 463 := hpow.symm
  unfold poissonTerm
  rw [show (-648 : ℝ) = -100 + -548 by norm_num, Real.exp_add, mul_div_assoc]
  exact mul_lt_mul_of_pos_left hmain (Real.exp_pos (-100))

/-- Just below (at) the switch, exact summation yields at least `463`. -/
theorem qpois_q648_100_ge : (463 : ℕ∞) ≤ qpois (1 - Real.exp (-648)) 100 := by
  obtain ⟨r, hr, hr1000, hror, hbelow⟩ :=
    qpois_summation_spec (show (0 : ℝ) < 100 by norm_num) le_rfl q648_pos q648_lt_one
  have hC : poissonCDF 100 462 < 1 - Real.exp (-648) :=
    poissonCDF_lt_one_sub (by norm_num) 462 poissonTerm_100_463_gt
  have hge : 463 ≤ r := by
    rcases hror with hcdf | hcap
    · by_contra hcon
      push_neg at hcon
      have : poissonCDF 100 r ≤ poissonCDF 100 462 :=
        poissonCDF_mono_idx (by norm_num) (by omega)
      linarith
    · omega
  rw [hr]
  exact_mod_cast Nat.cast_le.2 hge

/-! ### Claim C8 -/

/-- C8 counterexample: `qpois` is *not* monotone in `p` for fixed `lambda`
(at `lambda = 10^14`, crossing the reflection point `p = 0.5` of the normal
approximation decreases the result by 2), and *not* monotone in `lambda` for
fixed `p` across the regime switch at `lambda = 100` (at `p = 1 - e^(-648)`
the exact summation at `lambda = 100` exceeds the normal approximation at
`lambda = 101`). -/
theorem C8_qpois_monotonicity_counterexample :
    (Real.exp (-0.693147181) < 1/2 ∧
      qpois (1/2) 100000000000000 <
        qpois (Real.exp (-0.693147181)) 100000000000000) ∧
    ((100 : ℝ) ≤ 101 ∧
      qpois (1 - Real.exp (-648)) 101 < qpois (1 - Real.exp (-648)) 100) := by
  refine ⟨⟨by have := p1_lt_half; linarith, ?_⟩, ⟨by norm_num, ?_⟩⟩
  · rw [qpois_half_lam14, qpois_p1_lam14]
    exact_mod_cast Nat.cast_lt.2 (by norm_num)
  · rw [qpois_q648_101]
    exact lt_of_lt_of_le (by exact_mod_cast Nat.cast_lt.2 (by norm_num)) qpois_q648_100_ge

/-- C8 (amended): `qpois` is monotonically non-decreasing in `p` for fixed
`lambda` throughout the summation regime (`lambda ≤ 100`), and non-decreasing
in `lambda` for fixed `p` whenever both `lambda` values lie in the same
regime (both `≤ 100` or both `> 100`); monotonicity can fail in `p` in the
normal-approximation regime near `p = 0.5` and in `lambda` across the regime
switch at `lambda = 100`. -/
theorem C8_qpois_monotonicity :
    (∀ p₁ p₂ lam : ℝ, p₁ ≤ p₂ → lam ≤ 100 → qpois p₁ lam ≤ qpois p₂ lam) ∧
    (∀ p lam₁ lam₂ : ℝ, lam₁ ≤ lam₂ → lam₂ ≤ 100 → qpois p lam₁ ≤ qpois p lam₂) ∧
    (∀ p lam₁ lam₂ : ℝ, 100 < lam₁ → lam₁ ≤ lam₂ → qpois p lam₁ ≤ qpois p lam₂) :=
  ⟨qpois_mono_p_le100, qpois_mono_lam_le100, qpois_mono_lam_gt100⟩

/-- Witness for the amended C8: each monotonicity conjunct at concrete
inputs. -/
theorem C8_qpois_monotonicity_witness :
    ((1/4 : ℝ) ≤ 1/2 ∧ (1 : ℝ) ≤ 100 ∧ qpois (1/4) 1 ≤ qpois (1/2) 1) ∧
    ((1 : ℝ) ≤ 2 ∧ (2 : ℝ) ≤ 100 ∧ qpois (1/2) 1 ≤ qpois (1/2) 2) ∧
    ((100 : ℝ) < 200 ∧ (200 : ℝ) ≤ 300 ∧ qpois (1/2) 200 ≤ qpois (1/2) 300) :=
  ⟨⟨by norm_num, by norm_num, C8_qpois_monotonicity.1 (1/4) (1/2) 1 (by norm_num) (by norm_num)⟩,
    ⟨by norm_num, by norm_num,
      C8_qpois_monotonicity.2.1 (1/2) 1 2 (by norm_num) (by norm_num)⟩,
    ⟨by norm_num, by norm_num,
      C8_qpois_monotonicity.2.2 (1/2) 200 300 (by norm_num) (by norm_num)⟩⟩
